import Mathlib

/-!
Shallow embedding of the StackStorm-style workflow engine in
`task-scheduling-tools/stackstorm/workflow_engine.py`, together with
theorems checking the natural-language specification against it.

Modelling conventions:
* Python dictionaries holding workflow definitions become insertion-ordered
  association lists (`dictInsert` replaces an existing key in place, matching
  `self.workflows[name] = data`).
* `self.executions` (the execution store) is a `List Execution`, appended at
  the right, matching `self.executions.append(execution)`.
* Wall-clock time is modelled in whole seconds as `Nat`; `int(time.time())`
  at execution-creation time is the `now` parameter.  ISO-formatted
  timestamps compare chronologically, so `start_time` is a `Nat` as well.
  Per-step wall-clock stamps (`start_time`/`end_time` of a step result) are
  not observable by any claim and are not modelled.
* Side effects of step executors (running a subprocess, issuing an HTTP
  request) are modelled by outcome oracles in `Env`: the embedding is the
  engine's control flow over those outcomes, which is exactly what the
  Python code is.
* Python exceptions become `Except String`; `except Exception` blocks become
  `match` on that result.
-/

namespace WorkflowEngine

/-- Kind-specific output payload stored in `step_result['output']`.
`empty` is the initial `''`; shell stores the
`{stdout, stderr, returncode}` dict; http stores status code and truncated
body; the remaining kinds store strings. -/
inductive StepOutput where
  | empty
  | text (s : String)
  | shell (stdout stderr : String) (returncode : Int)
  | http (status_code : Nat) (body : String)
  deriving DecidableEq, Repr

/-- The `step_result` dict built by `WorkflowEngine.execute_step`. -/
structure StepResult where
  name : String
  action : Option String
  success : Bool
  output : StepOutput
  error : String
  deriving DecidableEq, Repr

/-- A step specification as read from the workflow YAML: `step.get(...)`
accesses, so every kind-specific key is optional. -/
structure Step where
  name : Option String := none
  action : Option String := none
  command : Option String := none
  message : Option String := none
  seconds : Option Nat := none
  url : Option String := none
  workflow_name : Option String := none
  timeout : Option Nat := none
  check_interval : Option Nat := none
  deriving DecidableEq, Repr

/-- A loaded workflow definition; `steps` models
`workflow.get('steps', [])` (a missing key behaves as the empty list). -/
structure Workflow where
  steps : List Step := []
  deriving DecidableEq, Repr

/-- The execution record created by `WorkflowEngine.execute_workflow`.
`error` is `none` unless the `except` branch assigns it. -/
structure Execution where
  id : String
  workflow_name : String
  status : String
  start_time : Nat
  end_time : Option Nat := none
  steps : List StepResult := []
  logs : List String := []
  error : Option String := none
  deriving DecidableEq, Repr

/-- Outcome of actually running a shell command (the part of
`subprocess.run` external to the engine). -/
inductive ShellOutcome where
  | completed (stdout stderr : String) (returncode : Int)
  | timedOut
  deriving DecidableEq, Repr

/-- Outcome of actually issuing an HTTP request (the part of
`requests.request` external to the engine). -/
inductive HttpOutcome where
  | response (status_code : Nat) (body : String)
  | failure (msg : String)
  deriving DecidableEq, Repr

/-- The world a single step executes against: oracles for external effects
and a snapshot of the shared engine state read by the cross-workflow step
kinds. -/
structure Env where
  shell : String → ShellOutcome
  http : String → HttpOutcome
  workflows : List (String × Workflow)
  store : List Execution

/-- Embeds `WorkflowEngine.execute_shell_command`: returns the captured
stdout/stderr/returncode dict whatever the return code is;
`subprocess.TimeoutExpired` is re-raised as `Exception("Command timed out")`. -/
def execute_shell_command (outcome : ShellOutcome) : Except String (String × String × Int) :=
  match outcome with
  | .completed stdout stderr rc => .ok (stdout, stderr, rc)
  | .timedOut => .error "Command timed out"

/-- Embeds `WorkflowEngine.execute_http_request`: body truncated to 1000
characters; a network failure raises. -/
def execute_http_request (outcome : HttpOutcome) : Except String (Nat × String) :=
  match outcome with
  | .response status body => .ok (status, body.take 1000)
  | .failure msg => .error msg

/-- Embeds `WorkflowEngine.trigger_workflow`: unknown target raises; otherwise the
target run is spawned on a background thread and a summary string returned
immediately (the spawned run itself is a separate `execute_workflow` call,
not part of this step's value). -/
def trigger_workflow (workflows : List (String × Workflow)) (step : Step) : Except String String :=
  match step.workflow_name with
  | some t =>
      if (workflows.lookup t).isSome then
        .ok ("Triggered workflow '" ++ t ++ "'")
      else
        .error ("Target workflow '" ++ t ++ "' not found")
  | none => .error "Target workflow 'None' not found"

/-- Renders `str(action)` as used in the `Unknown action: {action}` message
(`None` for a missing key). -/
def actionStr : Option String → String
  | some s => s
  | none => "None"

/-- The latest-execution lookup inlined in
`WorkflowEngine.wait_for_workflow_completion` (lines 163-165):
`recent_executions = [e for e in self.executions if e['workflow_name'] == target]`
followed by `max(recent_executions, key=lambda x: x['start_time'])`.
Python's `max` keeps the current maximum and replaces it only on a strictly
greater key, so among equal keys the earliest list element wins. -/
def find_latest (store : List Execution) (target : Option String) : Option Execution :=
  match store.filter (fun e => some e.workflow_name == target) with
  | [] => none
  | x :: xs => some (xs.foldl (fun best e => if best.start_time < e.start_time then e else best) x)

/-- The polling loop of `WorkflowEngine.wait_for_workflow_completion`
(lines 160-173), with elapsed wall time made explicit: the loop body runs
while `elapsed < timeout`; each iteration ends in `time.sleep(check_interval)`,
after which at least one time unit has passed (hence `max 1 interval`: real
wall time advances even for a zero sleep).  Returns the Python return value
or raised message, paired with the elapsed time on exit. -/
def wait_loop (store : List Execution) (target : Option String) (interval timeout elapsed : Nat) :
    Except String String × Nat :=
  if _h : elapsed < timeout then
    match find_latest store target with
    | some latest =>
        if latest.status == "completed" then
          (.ok ("Workflow '" ++ actionStr target ++ "' completed successfully"), elapsed)
        else if latest.status == "failed" then
          (.error ("Workflow '" ++ actionStr target ++ "' failed"), elapsed)
        else
          wait_loop store target interval timeout (elapsed + max 1 interval)
    | none => wait_loop store target interval timeout (elapsed + max 1 interval)
  else
    (.error ("Timeout waiting for workflow '" ++ actionStr target ++ "' to complete"), elapsed)
  termination_by timeout - elapsed
  decreasing_by
    all_goals omega

/-- Embeds `WorkflowEngine.wait_for_workflow_completion`: reads the target name
and the timeout (default 300 s) / check interval (default 5 s) from the
step, then polls the store. -/
def wait_for_workflow_completion (store : List Execution) (step : Step) :
    Except String String × Nat :=
  wait_loop store step.workflow_name (step.check_interval.getD 5) (step.timeout.getD 300) 0

/-- Embeds `WorkflowEngine.execute_step` (lines 91-150): builds the initial
`step_result` with `success=False`, dispatches on `step.get('action')`, and
converts any raised exception into `success=False` plus the exception
message in `error` — so this function is total.  (The source also appends
one log line to the owning execution before dispatch; `run_steps` models
that append, since the execution handle lives there.) -/
def execute_step (env : Env) (step : Step) : StepResult :=
  let base : StepResult :=
    { name := step.name.getD "unnamed_step"
      action := step.action
      success := false
      output := .empty
      error := "" }
  match step.action with
  | some "shell" =>
      match execute_shell_command (env.shell (step.command.getD "")) with
      | .ok (stdout, stderr, rc) => { base with success := true, output := .shell stdout stderr rc }
      | .error e => { base with success := false, error := e }
  | some "http_request" =>
      match execute_http_request (env.http (step.url.getD "")) with
      | .ok (status, body) => { base with success := true, output := .http status body }
      | .error e => { base with success := false, error := e }
  | some "log" =>
      { base with success := true, output := .text (step.message.getD "Log message") }
  | some "delay" =>
      { base with success := true
                  output := .text ("Delayed for " ++ toString (step.seconds.getD 1) ++ " seconds") }
  | some "wait_for_workflow" =>
      match (wait_for_workflow_completion env.store step).1 with
      | .ok msg => { base with success := true, output := .text msg }
      | .error e => { base with success := false, error := e }
  | some "trigger_workflow" =>
      match trigger_workflow env.workflows step with
      | .ok msg => { base with success := true, output := .text msg }
      | .error e => { base with success := false, error := e }
  | a => { base with success := false, error := "Unknown action: " ++ actionStr a }

/-- The step loop inside the `try` of `WorkflowEngine.execute_workflow`
(lines 69-89), parametrised over the dispatcher so that a dispatcher that
raises (`.error`) models an exception escaping `execute_step`: the
surrounding `except Exception` then records the message as the execution's
top-level error and finishes it as failed.  A dispatched result is appended
to `steps`; the first `success=False` result sets status `failed` and
returns without running further steps; if all steps succeed the status
becomes `completed`.  `endTime` is the wall clock at loop exit. -/
def run_steps (dispatch : Step → Except String StepResult) (endTime : Nat) :
    List Step → Execution → Execution
  | [], execution => { execution with status := "completed", end_time := some endTime }
  | step :: rest, execution =>
      let execution :=
        { execution with logs := execution.logs ++ ["Executing step: " ++ step.name.getD "unnamed_step"] }
      match dispatch step with
      | .error e =>
          { execution with status := "failed", error := some e, end_time := some endTime }
      | .ok r =>
          let execution := { execution with steps := execution.steps ++ [r] }
          if r.success then run_steps dispatch endTime rest execution
          else { execution with status := "failed", end_time := some endTime }

/-- The fresh execution record built at lines 56-64: id
`f"{workflow_name}_{int(time.time())}"`, status `running`, empty step and
log lists, no error. -/
def freshExecution (workflow_name : String) (now : Nat) : Execution :=
  { id := workflow_name ++ "_" ++ toString now
    workflow_name := workflow_name
    status := "running"
    start_time := now }

/-- Embeds `WorkflowEngine.execute_workflow` (lines 48-89) acting on the engine
state `(workflows, executions)`: an unknown name raises before any
execution is created; otherwise a fresh execution with id
`f"{workflow_name}_{int(time.time())}"` and status `running` is appended to
the store and the steps are run.  The store holds the (mutated-in-place)
execution, so after the call it ends with the finished record. -/
def execute_workflow (dispatch : Step → Except String StepResult)
    (workflows : List (String × Workflow)) (executions : List Execution)
    (workflow_name : String) (now : Nat) :
    List Execution × Except String Execution :=
  match workflows.lookup workflow_name with
  | none => (executions, .error ("Workflow '" ++ workflow_name ++ "' not found"))
  | some workflow =>
      let final := run_steps dispatch now workflow.steps (freshExecution workflow_name now)
      (executions ++ [final], .ok final)

/-- The dispatcher used by the unmodified engine: `execute_step` never lets
an exception escape, so it always returns `.ok`. -/
def engineDispatch (env : Env) : Step → Except String StepResult :=
  fun step => .ok (execute_step env step)

/-- A parsed workflow document as `load_workflows` sees it after
`yaml.safe_load`: either the read/parse raised, or it yielded data in which
the `name` key may be missing (`workflow_data['name']` then raises
`KeyError`).  The step list is carried through untouched — the loader never
looks at it. -/
inductive Doc where
  | parseError
  | parsed (name : Option String) (steps : List Step)
  deriving DecidableEq, Repr

/-- Python dict assignment `self.workflows[name] = data`: replace the value
of an existing key in place, otherwise append. -/
def dictInsert (m : List (String × Workflow)) (k : String) (v : Workflow) :
    List (String × Workflow) :=
  if (m.lookup k).isSome then
    m.map (fun p => if p.1 == k then (k, v) else p)
  else
    m ++ [(k, v)]

/-- Loading one document inside the per-file `try` of
`WorkflowEngine.load_workflows` (lines 39-46): any exception — a parse
failure or the `KeyError` from a missing `name` — is logged and the file
skipped; otherwise the catalog entry is assigned.  No validation of the
step list happens. -/
def load_doc (workflows : List (String × Workflow)) (d : Doc) : List (String × Workflow) :=
  match d with
  | .parseError => workflows
  | .parsed none _ => workflows
  | .parsed (some n) steps => dictInsert workflows n { steps := steps }

/-- Embeds `WorkflowEngine.load_workflows`: fold `load_doc` over the documents in
directory order. -/
def load_workflows (docs : List Doc) : List (String × Workflow) :=
  docs.foldl load_doc []

/-- The `/api/executions` handler (lines 261-263):
`jsonify(engine.executions[-10:])` — the last ten store entries, in store
(creation) order. -/
def list_executions (executions : List Execution) : List Execution :=
  executions.drop (executions.length - 10)

/-- A log step used in concrete runs. -/
def sampleLog : Step :=
  { name := some "s1", action := some "log", message := some "hi" }

/-- A shell step used in concrete runs. -/
def sampleShell : Step :=
  { name := some "s2", action := some "shell", command := some "boom" }

/-- A world whose shell oracle always times out and whose HTTP oracle
always fails. -/
def sampleEnvTimeout : Env :=
  { shell := fun _ => .timedOut, http := fun _ => .failure "net down"
    workflows := [], store := [] }

/-- A three-step workflow whose second step is a shell command; under
`sampleEnvTimeout` that second step fails. -/
def wfThree : Workflow := { steps := [sampleLog, sampleShell, sampleLog] }

/-- A completed execution of workflow `t`. -/
def execCompleted : Execution :=
  { id := "t_1", workflow_name := "t", status := "completed", start_time := 1 }

/-- A failed execution of workflow `t`. -/
def execFailed : Execution :=
  { id := "t_2", workflow_name := "t", status := "failed", start_time := 2 }

/-- A `wait_for_workflow` step targeting workflow `t` with default timeout
and check interval. -/
def waitStep : Step :=
  { name := some "w", action := some "wait_for_workflow", workflow_name := some "t" }

/-- A dispatcher that models a bug raising inside step dispatch: every
call raises. -/
def boomDispatch : Step → Except String StepResult :=
  fun _ => Except.error "boom"

/-- An execution of workflow `a` created at time 1. -/
def execA : Execution :=
  { id := "a_1", workflow_name := "a", status := "completed", start_time := 1 }

/-- An execution of workflow `b` created at time 2. -/
def execB : Execution :=
  { id := "b_2", workflow_name := "b", status := "completed", start_time := 2 }

/-- An execution of workflow `t` whose creation timestamp is 5. -/
def execT1 : Execution :=
  { id := "t_5a", workflow_name := "t", status := "completed", start_time := 5 }

/-- A second, distinct execution of workflow `t` with the same creation
timestamp 5, appended to the store after `execT1`. -/
def execT2 : Execution :=
  { id := "t_5b", workflow_name := "t", status := "failed", start_time := 5 }

/-- A step whose action string is not one of the six known kinds. -/
def unknownStep : Step := { action := some "frobnicate" }

/-- A world whose store holds one completed execution of workflow `t`. -/
def envStoreCompleted : Env :=
  { shell := fun _ => .timedOut, http := fun _ => .failure "net down"
    workflows := [], store := [execCompleted] }

/-- A world whose store holds one failed execution of workflow `t`. -/
def envStoreFailed : Env :=
  { shell := fun _ => .timedOut, http := fun _ => .failure "net down"
    workflows := [], store := [execFailed] }

/-- The log lines `execute_step` contributes for a list of steps. -/
def stepLogs (steps : List Step) : List String :=
  steps.map (fun s => "Executing step: " ++ s.name.getD "unnamed_step")

lemma run_steps_id (dispatch : Step → Except String StepResult) (t : Nat)
    (steps : List Step) (e : Execution) :
    (run_steps dispatch t steps e).id = e.id := by
  induction steps generalizing e with
  | nil => simp [run_steps]
  | cons s rest ih =>
    simp only [run_steps]
    cases dispatch s with
    | error msg => rfl
    | ok r =>
      by_cases hr : r.success = true
      · simp only [hr, if_true]
        exact ih _
      · simp only [Bool.not_eq_true] at hr
        simp [hr]

lemma run_steps_ok_prefix (dispatch : Step → Except String StepResult) (t : Nat)
    (pre rest : List Step) (rs : List StepResult) (e : Execution)
    (h : pre.map dispatch = rs.map Except.ok) (hs : ∀ r ∈ rs, r.success = true) :
    run_steps dispatch t (pre ++ rest) e =
      run_steps dispatch t rest
        { e with steps := e.steps ++ rs, logs := e.logs ++ stepLogs pre } := by
  induction pre generalizing rs e with
  | nil =>
    cases rs with
    | nil => simp [stepLogs]
    | cons r rs' => simp at h
  | cons s pre' ih =>
    cases rs with
    | nil => simp at h
    | cons r rs' =>
      simp only [List.map_cons, List.cons.injEq] at h
      obtain ⟨h1, h2⟩ := h
      have hr : r.success = true := hs r (by simp)
      simp only [List.cons_append, run_steps, h1, hr, if_true]
      simp only [List.append_eq]
      rw [ih rs' _ h2 (fun r' hr' => hs r' (by simp [hr']))]
      congr 1
      simp [stepLogs, List.append_assoc]

lemma run_steps_fail_head (dispatch : Step → Except String StepResult) (t : Nat)
    (s : Step) (rest : List Step) (r : StepResult) (e : Execution)
    (h : dispatch s = .ok r) (hr : r.success = false) :
    run_steps dispatch t (s :: rest) e =
      { e with logs := e.logs ++ ["Executing step: " ++ s.name.getD "unnamed_step"]
               steps := e.steps ++ [r]
               status := "failed"
               end_time := some t } := by
  simp [run_steps, h, hr]

lemma run_steps_error_head (dispatch : Step → Except String StepResult) (t : Nat)
    (s : Step) (rest : List Step) (msg : String) (e : Execution)
    (h : dispatch s = .error msg) :
    run_steps dispatch t (s :: rest) e =
      { e with logs := e.logs ++ ["Executing step: " ++ s.name.getD "unnamed_step"]
               status := "failed"
               error := some msg
               end_time := some t } := by
  simp [run_steps, h]

lemma execute_step_shell_eq (env : Env) (step : Step) (h : step.action = some "shell") :
    execute_step env step =
      (match execute_shell_command (env.shell (step.command.getD "")) with
      | .ok (stdout, stderr, rc) =>
          { name := step.name.getD "unnamed_step", action := step.action,
            success := true, output := .shell stdout stderr rc, error := "" }
      | .error e =>
          { name := step.name.getD "unnamed_step", action := step.action,
            success := false, output := .empty, error := e }) := by
  unfold execute_step
  rw [h]
  rfl

lemma execute_step_wait_eq (env : Env) (step : Step)
    (h : step.action = some "wait_for_workflow") :
    execute_step env step =
      (match (wait_for_workflow_completion env.store step).1 with
      | .ok msg =>
          { name := step.name.getD "unnamed_step", action := step.action,
            success := true, output := .text msg, error := "" }
      | .error e =>
          { name := step.name.getD "unnamed_step", action := step.action,
            success := false, output := .empty, error := e }) := by
  unfold execute_step
  rw [h]
  rfl

lemma wait_loop_none (store : List Execution) (target : Option String)
    (interval timeout elapsed : Nat) (h : find_latest store target = none) :
    (wait_loop store target interval timeout elapsed).1 =
      .error ("Timeout waiting for workflow '" ++ actionStr target ++ "' to complete") ∧
    timeout ≤ (wait_loop store target interval timeout elapsed).2 := by
  induction elapsed using wait_loop.induct store target interval timeout with
  | case1 x hlt latest hfind => rw [h] at hfind; exact absurd hfind (by simp)
  | case2 x hlt latest hfind => rw [h] at hfind; exact absurd hfind (by simp)
  | case3 x hlt latest hfind => rw [h] at hfind; exact absurd hfind (by simp)
  | case4 x hlt hfind ih =>
    rw [wait_loop, dif_pos hlt, hfind]
    exact ih
  | case5 x hge =>
    rw [wait_loop, dif_neg hge]
    exact ⟨rfl, by omega⟩

lemma wait_loop_completed (store : List Execution) (target : Option String)
    (interval timeout : Nat) (e : Execution) (hpos : 0 < timeout)
    (hfind : find_latest store target = some e) (hstatus : e.status = "completed") :
    wait_loop store target interval timeout 0 =
      (.ok ("Workflow '" ++ actionStr target ++ "' completed successfully"), 0) := by
  rw [wait_loop, dif_pos hpos, hfind]
  simp [hstatus]

lemma wait_loop_failed (store : List Execution) (target : Option String)
    (interval timeout : Nat) (e : Execution) (hpos : 0 < timeout)
    (hfind : find_latest store target = some e) (hstatus : e.status = "failed") :
    wait_loop store target interval timeout 0 =
      (.error ("Workflow '" ++ actionStr target ++ "' failed"), 0) := by
  rw [wait_loop, dif_pos hpos, hfind]
  simp [hstatus]

lemma foldl_latest_mem (x : Execution) (xs : List Execution) :
    xs.foldl (fun best e => if best.start_time < e.start_time then e else best) x ∈ x :: xs := by
  induction xs generalizing x with
  | nil => simp
  | cons y ys ih =>
    simp only [List.foldl_cons]
    have hmem := ih (if x.start_time < y.start_time then y else x)
    by_cases hxy : x.start_time < y.start_time <;> simp [hxy] at hmem ⊢ <;> tauto

lemma foldl_latest_le (x : Execution) (xs : List Execution) :
    ∀ y ∈ x :: xs,
      y.start_time ≤
        (xs.foldl (fun best e => if best.start_time < e.start_time then e else best) x).start_time := by
  induction xs generalizing x with
  | nil => simp
  | cons z zs ih =>
    intro y hy
    simp only [List.mem_cons] at hy
    simp only [List.foldl_cons]
    have hle := ih (if x.start_time < z.start_time then z else x)
    by_cases hxz : x.start_time < z.start_time <;>
      simp only [hxz, if_true, if_false] at hle ⊢
    · rcases hy with hy | hy | hy
      · rw [hy]
        exact le_trans (le_of_lt hxz) (hle z (by simp))
      · rw [hy]
        exact hle z (by simp)
      · exact hle y (by simp [hy])
    · rcases hy with hy | hy | hy
      · rw [hy]
        exact hle x (by simp)
      · rw [hy]
        exact le_trans (le_of_not_lt hxz) (hle x (by simp))
      · exact hle y (by simp [hy])

lemma lookup_map_replace (m : List (String × Workflow)) (k : String) (v : Workflow)
    (hsome : (m.lookup k).isSome) :
    (m.map (fun p => if p.1 == k then (k, v) else p)).lookup k = some v := by
  induction m with
  | nil => simp [List.lookup] at hsome
  | cons p m' ih =>
    obtain ⟨k', v'⟩ := p
    by_cases hpk : k' = k
    · subst hpk
      simp [List.lookup_cons]
    · have h1 : (k' == k) = false := beq_eq_false_iff_ne.mpr hpk
      have h2 : (k == k') = false := beq_eq_false_iff_ne.mpr (fun h => hpk h.symm)
      simp only [List.lookup_cons, h2] at hsome
      simp only [List.map_cons, h1, Bool.false_eq_true, if_false, List.lookup_cons, h2]
      exact ih hsome

lemma lookup_append_single (m : List (String × Workflow)) (k : String) (v : Workflow)
    (hnone : m.lookup k = none) :
    (m ++ [(k, v)]).lookup k = some v := by
  induction m with
  | nil => simp [List.lookup]
  | cons p m' ih =>
    obtain ⟨k', v'⟩ := p
    by_cases hpk : k = k'
    · subst hpk
      simp [List.lookup_cons] at hnone
    · have h2 : (k == k') = false := beq_eq_false_iff_ne.mpr hpk
      simp only [List.lookup_cons, h2] at hnone
      simp only [List.cons_append, List.lookup_cons, h2]
      exact ih hnone

lemma lookup_dictInsert (m : List (String × Workflow)) (k : String) (v : Workflow) :
    (dictInsert m k v).lookup k = some v := by
  unfold dictInsert
  split
  · rename_i hsome
    exact lookup_map_replace m k v hsome
  · rename_i hnone
    exact lookup_append_single m k v (by
      cases h : m.lookup k with
      | none => rfl
      | some w => rw [h] at hnone; simp at hnone)

/-- C1 counterexample: running the 3-step workflow `wfThree` (log, shell,
log) in a world whose shell command times out gives an Execution with
status `failed` and exactly 2 StepResults, the second with success=false —
but its top-level `error` field is `none`, so the Execution does not carry
an error summarizing the failing step, contrary to the claim. -/
theorem c1_counterexample :
    ((execute_workflow (engineDispatch sampleEnvTimeout) [("w", wfThree)] [] "w" 1000).2.toOption.map
        (fun f => (f.status, f.steps.map StepResult.success, f.error))) =
      some ("failed", [true, false], none) := by
  decide

/-- C1 (amended): the first StepResult with success=false halts the step
sequence: for a workflow whose steps split as `pre ++ failStep :: post`
with every step of `pre` dispatching to a successful result and `failStep`
dispatching to a failed one, the run appends exactly one Execution holding
exactly the results of `pre` plus the failing result (nothing from `post`),
with final status `failed`; the failing step's error lives in its
StepResult while the Execution's top-level error field stays `none`. -/
theorem c1_first_failure_stops
    (dispatch : Step → Except String StepResult) (workflows : List (String × Workflow))
    (executions : List Execution) (workflow_name : String) (now : Nat)
    (wf : Workflow) (pre post : List Step) (failStep : Step)
    (rs : List StepResult) (fr : StepResult)
    (hwf : workflows.lookup workflow_name = some wf)
    (hsteps : wf.steps = pre ++ failStep :: post)
    (hpre : pre.map dispatch = rs.map Except.ok)
    (hs : ∀ r ∈ rs, r.success = true)
    (hfail : dispatch failStep = .ok fr)
    (hfr : fr.success = false) :
    (execute_workflow dispatch workflows executions workflow_name now).2 =
      .ok (run_steps dispatch now wf.steps (freshExecution workflow_name now)) ∧
    (execute_workflow dispatch workflows executions workflow_name now).1 =
      executions ++ [run_steps dispatch now wf.steps (freshExecution workflow_name now)] ∧
    (run_steps dispatch now wf.steps (freshExecution workflow_name now)).status = "failed" ∧
    (run_steps dispatch now wf.steps (freshExecution workflow_name now)).steps = rs ++ [fr] ∧
    (run_steps dispatch now wf.steps (freshExecution workflow_name now)).error = none := by
  refine ⟨by simp [execute_workflow, hwf], by simp [execute_workflow, hwf], ?_⟩
  rw [hsteps, run_steps_ok_prefix dispatch now pre (failStep :: post) rs _ hpre hs,
      run_steps_fail_head dispatch now failStep post fr _ hfail hfr]
  refine ⟨rfl, by simp [freshExecution], rfl⟩

/-- C1 witness: the amended theorem applied to the concrete 3-step workflow
`wfThree` under `sampleEnvTimeout`, whose second (shell) step fails. -/
theorem c1_first_failure_stops_witness :
    (execute_workflow (engineDispatch sampleEnvTimeout) [("w", wfThree)] [] "w" 1000).2 =
      .ok (run_steps (engineDispatch sampleEnvTimeout) 1000 wfThree.steps (freshExecution "w" 1000)) ∧
    (execute_workflow (engineDispatch sampleEnvTimeout) [("w", wfThree)] [] "w" 1000).1 =
      [] ++ [run_steps (engineDispatch sampleEnvTimeout) 1000 wfThree.steps (freshExecution "w" 1000)] ∧
    (run_steps (engineDispatch sampleEnvTimeout) 1000 wfThree.steps (freshExecution "w" 1000)).status = "failed" ∧
    (run_steps (engineDispatch sampleEnvTimeout) 1000 wfThree.steps (freshExecution "w" 1000)).steps =
      [execute_step sampleEnvTimeout sampleLog] ++ [execute_step sampleEnvTimeout sampleShell] ∧
    (run_steps (engineDispatch sampleEnvTimeout) 1000 wfThree.steps (freshExecution "w" 1000)).error = none :=
  c1_first_failure_stops (engineDispatch sampleEnvTimeout) [("w", wfThree)] [] "w" 1000
    wfThree [sampleLog] [sampleLog] sampleShell
    [execute_step sampleEnvTimeout sampleLog] (execute_step sampleEnvTimeout sampleShell)
    (by decide) rfl rfl (by decide) rfl (by decide)

/-- C2: for a run on a name present in the catalog, an exception escaping
step dispatch (a dispatcher returning `.error`, i.e. not converted into a
failed StepResult) is caught at the engine boundary: the run still returns
an Execution (never re-raises — the `.ok` result), the Execution is
finished with status `failed`, and the exception's message is recorded as
the Execution's top-level error, with the results of the steps already run
preserved. -/
theorem c2_engine_boundary_catches_dispatch_exception
    (dispatch : Step → Except String StepResult) (workflows : List (String × Workflow))
    (executions : List Execution) (workflow_name : String) (now : Nat)
    (wf : Workflow) (pre post : List Step) (badStep : Step)
    (rs : List StepResult) (msg : String)
    (hwf : workflows.lookup workflow_name = some wf)
    (hsteps : wf.steps = pre ++ badStep :: post)
    (hpre : pre.map dispatch = rs.map Except.ok)
    (hs : ∀ r ∈ rs, r.success = true)
    (hbad : dispatch badStep = .error msg) :
    (execute_workflow dispatch workflows executions workflow_name now).2 =
      .ok (run_steps dispatch now wf.steps (freshExecution workflow_name now)) ∧
    (execute_workflow dispatch workflows executions workflow_name now).1 =
      executions ++ [run_steps dispatch now wf.steps (freshExecution workflow_name now)] ∧
    (run_steps dispatch now wf.steps (freshExecution workflow_name now)).status = "failed" ∧
    (run_steps dispatch now wf.steps (freshExecution workflow_name now)).error = some msg ∧
    (run_steps dispatch now wf.steps (freshExecution workflow_name now)).steps = rs := by
  refine ⟨by simp [execute_workflow, hwf], by simp [execute_workflow, hwf], ?_⟩
  rw [hsteps, run_steps_ok_prefix dispatch now pre (badStep :: post) rs _ hpre hs,
      run_steps_error_head dispatch now badStep post msg _ hbad]
  refine ⟨rfl, rfl, by simp [freshExecution]⟩

/-- C2 witness: the theorem applied to a dispatcher that raises on every
step, on the concrete catalog holding `wfThree`. -/
theorem c2_engine_boundary_witness :
    (execute_workflow boomDispatch [("w", wfThree)] [] "w" 7).2 =
      .ok (run_steps boomDispatch 7 wfThree.steps (freshExecution "w" 7)) ∧
    (execute_workflow boomDispatch [("w", wfThree)] [] "w" 7).1 =
      [] ++ [run_steps boomDispatch 7 wfThree.steps (freshExecution "w" 7)] ∧
    (run_steps boomDispatch 7 wfThree.steps (freshExecution "w" 7)).status = "failed" ∧
    (run_steps boomDispatch 7 wfThree.steps (freshExecution "w" 7)).error = some "boom" ∧
    (run_steps boomDispatch 7 wfThree.steps (freshExecution "w" 7)).steps = [] :=
  c2_engine_boundary_catches_dispatch_exception boomDispatch [("w", wfThree)] [] "w" 7
    wfThree [] [sampleShell, sampleLog] sampleLog [] "boom"
    (by decide) rfl rfl (by simp) rfl

/-- C3: a `wait_for_workflow` step (with a positive timeout window, default
300 s) yields a successful StepResult when the target's latest execution is
`completed`, a failed StepResult when it is `failed`, and when the target
has no executions at all it yields a failed StepResult only after the
configured timeout window has fully elapsed — the exit time of the polling
loop is at least the timeout, never earlier. -/
theorem c3_wait_step_outcomes (env : Env) (step : Step)
    (haction : step.action = some "wait_for_workflow")
    (hpos : 0 < step.timeout.getD 300) :
    (∀ e, find_latest env.store step.workflow_name = some e → e.status = "completed" →
        (execute_step env step).success = true) ∧
    (∀ e, find_latest env.store step.workflow_name = some e → e.status = "failed" →
        (execute_step env step).success = false) ∧
    (find_latest env.store step.workflow_name = none →
        (execute_step env step).success = false ∧
        step.timeout.getD 300 ≤ (wait_for_workflow_completion env.store step).2) := by
  refine ⟨?_, ?_, ?_⟩
  · intro e hfind hstatus
    rw [execute_step_wait_eq env step haction]
    simp only [wait_for_workflow_completion]
    rw [wait_loop_completed env.store step.workflow_name _ _ e hpos hfind hstatus]
  · intro e hfind hstatus
    rw [execute_step_wait_eq env step haction]
    simp only [wait_for_workflow_completion]
    rw [wait_loop_failed env.store step.workflow_name _ _ e hpos hfind hstatus]
  · intro hfind
    have hnone := wait_loop_none env.store step.workflow_name
      (step.check_interval.getD 5) (step.timeout.getD 300) 0 hfind
    constructor
    · rw [execute_step_wait_eq env step haction]
      simp only [wait_for_workflow_completion]
      rw [hnone.1]
    · simpa [wait_for_workflow_completion] using hnone.2

/-- C3 witness: the theorem applied at a store with a completed latest
execution, a store with a failed latest execution, and an empty store with
the default 300 s window. -/
theorem c3_wait_step_outcomes_witness :
    (execute_step envStoreCompleted waitStep).success = true ∧
    (execute_step envStoreFailed waitStep).success = false ∧
    ((execute_step sampleEnvTimeout waitStep).success = false ∧
      waitStep.timeout.getD 300 ≤ (wait_for_workflow_completion sampleEnvTimeout.store waitStep).2) :=
  ⟨(c3_wait_step_outcomes envStoreCompleted waitStep rfl (by decide)).1 execCompleted (by decide) rfl,
   (c3_wait_step_outcomes envStoreFailed waitStep rfl (by decide)).2.1 execFailed (by decide) rfl,
   (c3_wait_step_outcomes sampleEnvTimeout waitStep rfl (by decide)).2.2 (by decide)⟩

/-- C4: a shell step whose command completes within the timeout yields
success=true whatever the return code is, with the return code captured
only in the output payload alongside stdout and stderr; a command that
exceeds the timeout yields success=false with the timeout message as the
step error. -/
theorem c4_shell_step_outcomes (env : Env) (step : Step)
    (haction : step.action = some "shell") :
    (∀ stdout stderr rc, env.shell (step.command.getD "") = .completed stdout stderr rc →
        (execute_step env step).success = true ∧
        (execute_step env step).output = .shell stdout stderr rc ∧
        (execute_step env step).error = "") ∧
    (env.shell (step.command.getD "") = .timedOut →
        (execute_step env step).success = false ∧
        (execute_step env step).error = "Command timed out") := by
  constructor
  · intro stdout stderr rc h
    rw [execute_step_shell_eq env step haction]
    simp [execute_shell_command, h]
  · intro h
    rw [execute_step_shell_eq env step haction]
    simp [execute_shell_command, h]

/-- C4 witness: the theorem applied to a world whose shell oracle exits
with return code 3, and to one whose shell oracle times out. -/
theorem c4_shell_step_outcomes_witness :
    ((execute_step { sampleEnvTimeout with shell := fun _ => .completed "out" "err" 3 } sampleShell).success = true ∧
     (execute_step { sampleEnvTimeout with shell := fun _ => .completed "out" "err" 3 } sampleShell).output =
        .shell "out" "err" 3 ∧
     (execute_step { sampleEnvTimeout with shell := fun _ => .completed "out" "err" 3 } sampleShell).error = "") ∧
    ((execute_step sampleEnvTimeout sampleShell).success = false ∧
     (execute_step sampleEnvTimeout sampleShell).error = "Command timed out") :=
  ⟨(c4_shell_step_outcomes { sampleEnvTimeout with shell := fun _ => .completed "out" "err" 3 }
      sampleShell rfl).1 "out" "err" 3 rfl,
   (c4_shell_step_outcomes sampleEnvTimeout sampleShell rfl).2 rfl⟩

/-- C5 counterexample: triggering the same workflow twice with the same
whole-second creation time (as `int(time.time())` yields for two runs in
the same second) produces two Executions in the store with the SAME id
`w_1000`, refuting the claimed per-run uniqueness. -/
theorem c5_counterexample :
    ((execute_workflow (engineDispatch sampleEnvTimeout) [("w", wfThree)]
        (execute_workflow (engineDispatch sampleEnvTimeout) [("w", wfThree)] [] "w" 1000).1
        "w" 1000).1.map Execution.id) = ["w_1000", "w_1000"] := by
  decide

/-- C5 (amended): an Execution's id is derived from the workflow name plus
the whole-second creation time, so it is not unique per run: two runs of
the same workflow created in the same second receive equal ids.  Each run
still appends its own Execution record to the store — the two records'
StepResult sequences are each produced by that run's own step loop started
from a fresh record. -/
theorem c5_id_derivation_and_collision
    (dispatch : Step → Except String StepResult) (workflows : List (String × Workflow))
    (executions : List Execution) (name : String) (t1 t2 : Nat) (wf : Workflow)
    (hwf : workflows.lookup name = some wf) :
    (execute_workflow dispatch workflows
        (execute_workflow dispatch workflows executions name t1).1 name t2).1 =
      executions ++ [run_steps dispatch t1 wf.steps (freshExecution name t1),
                     run_steps dispatch t2 wf.steps (freshExecution name t2)] ∧
    (run_steps dispatch t1 wf.steps (freshExecution name t1)).id = name ++ "_" ++ toString t1 ∧
    (run_steps dispatch t2 wf.steps (freshExecution name t2)).id = name ++ "_" ++ toString t2 ∧
    (t1 = t2 →
      (run_steps dispatch t1 wf.steps (freshExecution name t1)).id =
        (run_steps dispatch t2 wf.steps (freshExecution name t2)).id) := by
  refine ⟨by simp [execute_workflow, hwf], ?_, ?_, ?_⟩
  · rw [run_steps_id]; rfl
  · rw [run_steps_id]; rfl
  · intro h
    rw [h]

/-- C5 witness: the amended theorem applied to two same-second runs of the
concrete workflow `wfThree`. -/
theorem c5_id_derivation_witness :
    (execute_workflow (engineDispatch sampleEnvTimeout) [("w", wfThree)]
        (execute_workflow (engineDispatch sampleEnvTimeout) [("w", wfThree)] [] "w" 1000).1
        "w" 1000).1 =
      [] ++ [run_steps (engineDispatch sampleEnvTimeout) 1000 wfThree.steps (freshExecution "w" 1000),
             run_steps (engineDispatch sampleEnvTimeout) 1000 wfThree.steps (freshExecution "w" 1000)] ∧
    (run_steps (engineDispatch sampleEnvTimeout) 1000 wfThree.steps (freshExecution "w" 1000)).id =
      "w" ++ "_" ++ toString 1000 ∧
    (run_steps (engineDispatch sampleEnvTimeout) 1000 wfThree.steps (freshExecution "w" 1000)).id =
      "w" ++ "_" ++ toString 1000 ∧
    (1000 = 1000 →
      (run_steps (engineDispatch sampleEnvTimeout) 1000 wfThree.steps (freshExecution "w" 1000)).id =
        (run_steps (engineDispatch sampleEnvTimeout) 1000 wfThree.steps (freshExecution "w" 1000)).id) :=
  c5_id_derivation_and_collision (engineDispatch sampleEnvTimeout) [("w", wfThree)] [] "w" 1000 1000
    wfThree (by decide)

/-- C6 counterexample: with a two-execution store (`execA` created before
`execB`), the recent-executions query returns them in creation order — its
first element is the OLDER execution — so the result is not
most-recent-first as the claim states. -/
theorem c6_counterexample :
    list_executions [execA, execB] = [execA, execB] ∧
    execA.start_time < execB.start_time ∧
    (list_executions [execA, execB]).head? = some execA ∧
    execA ≠ execB := by
  decide

/-- C6 (amended): the recent-executions query returns the last 10 store
entries — a fixed window, not a caller-supplied limit — as a suffix of the
store, i.e. in creation order with the most recent LAST; its length is
`min (store length) 10`. -/
theorem c6_recent_is_suffix_of_ten (executions : List Execution) :
    executions =
      executions.take (executions.length - 10) ++ list_executions executions ∧
    (list_executions executions).length = min executions.length 10 := by
  constructor
  · rw [list_executions, List.take_append_drop]
  · rw [list_executions, List.length_drop]
    omega

/-- C7 counterexample: two executions of workflow `t` whose creation
timestamps collide; `find_latest` returns the one appended FIRST
(`execT1`), not the most-recently-appended (`execT2`) as the claim states. -/
theorem c7_counterexample :
    find_latest [execT1, execT2] (some "t") = some execT1 ∧
    execT1.start_time = execT2.start_time ∧
    execT1 ≠ execT2 := by
  decide

/-- C7 (amended): the latest-execution lookup used by `wait_for_workflow`
picks, among the executions of the target name, one whose creation
timestamp is maximal; when two executions' timestamps collide, the one
appended to the store EARLIEST wins (Python's `max` keeps the first
maximal element). -/
theorem c7_find_latest_max_first
    : (∀ (store : List Execution) (t : Option String) (e : Execution),
        find_latest store t = some e →
          e ∈ store ∧ (some e.workflow_name == t) = true ∧
          ∀ x ∈ store, (some x.workflow_name == t) = true → x.start_time ≤ e.start_time) ∧
      (∀ (a b : Execution) (t : Option String),
        (some a.workflow_name == t) = true → (some b.workflow_name == t) = true →
        b.start_time ≤ a.start_time → find_latest [a, b] t = some a) := by
  constructor
  · intro store t e hfind
    rw [find_latest] at hfind
    cases hfilter : store.filter (fun x => some x.workflow_name == t) with
    | nil => rw [hfilter] at hfind; exact absurd hfind (by simp)
    | cons x xs =>
      rw [hfilter] at hfind
      simp only [Option.some.injEq] at hfind
      have hmem : e ∈ x :: xs := hfind ▸ foldl_latest_mem x xs
      have hmem' : e ∈ store.filter (fun x => some x.workflow_name == t) := hfilter ▸ hmem
      have hin := List.mem_filter.mp hmem'
      refine ⟨hin.1, hin.2, ?_⟩
      intro y hy hyt
      have hy' : y ∈ x :: xs := by
        rw [← hfilter]
        exact List.mem_filter.mpr ⟨hy, hyt⟩
      exact hfind ▸ foldl_latest_le x xs y hy'
  · intro a b t ha hb hle
    rw [find_latest]
    have : [a, b].filter (fun x => some x.workflow_name == t) = [a, b] := by
      simp [List.filter, ha, hb]
    rw [this]
    simp only [List.foldl_cons, List.foldl_nil]
    rw [if_neg (by omega)]

/-- C7 witness: the amended theorem applied to a store holding a failed
execution appended before an older completed one: the timestamp-maximal
(failed) execution is returned. -/
theorem c7_find_latest_witness :
    find_latest [execFailed, execCompleted] (some "t") = some execFailed :=
  c7_find_latest_max_first.2 execFailed execCompleted (some "t") (by decide) (by decide) (by decide)

/-- C8: running a workflow name absent from the catalog raises the
not-found error before any Execution is created: the returned store is
exactly the input store and the result is the not-found error naming the
workflow. -/
theorem c8_not_found_leaves_store_unchanged
    (dispatch : Step → Except String StepResult) (workflows : List (String × Workflow))
    (executions : List Execution) (workflow_name : String) (now : Nat)
    (h : workflows.lookup workflow_name = none) :
    execute_workflow dispatch workflows executions workflow_name now =
      (executions, .error ("Workflow '" ++ workflow_name ++ "' not found")) := by
  simp [execute_workflow, h]

/-- C8 witness: the theorem applied to an empty catalog and a nonempty
store. -/
theorem c8_not_found_witness :
    execute_workflow (engineDispatch sampleEnvTimeout) [] [execA] "nope" 5 =
      ([execA], .error ("Workflow '" ++ "nope" ++ "' not found")) :=
  c8_not_found_leaves_store_unchanged (engineDispatch sampleEnvTimeout) [] [execA] "nope" 5 rfl

/-- C9 counterexample: a document with a name and an EMPTY step list is
loaded into the catalog — the loader never inspects the step list — so
empty-step-list documents are not rejected as the claim states. -/
theorem c9_counterexample :
    (load_workflows [Doc.parsed (some "w") []]).lookup "w" = some { steps := [] } := by
  decide

/-- C9 (amended): catalog load skips a document whose read/parse raised or
whose `name` key is missing, and such a document never prevents the other
documents from loading — dropping it from the document list leaves the
resulting catalog unchanged; a document with a name is always assigned
into the catalog under that name, even when its step list is empty (the
step list is not validated at load time). -/
theorem c9_load_skips_only_unnamed
    : (∀ (docs1 docs2 : List Doc),
        load_workflows (docs1 ++ Doc.parseError :: docs2) = load_workflows (docs1 ++ docs2)) ∧
      (∀ (docs1 docs2 : List Doc) (steps : List Step),
        load_workflows (docs1 ++ Doc.parsed none steps :: docs2) =
          load_workflows (docs1 ++ docs2)) ∧
      (∀ (m : List (String × Workflow)) (n : String) (steps : List Step),
        (load_doc m (Doc.parsed (some n) steps)).lookup n = some { steps := steps }) := by
  refine ⟨?_, ?_, ?_⟩
  · intro docs1 docs2
    simp [load_workflows, List.foldl_append, load_doc]
  · intro docs1 docs2 steps
    simp [load_workflows, List.foldl_append, load_doc]
  · intro m n steps
    rw [load_doc]
    exact lookup_dictInsert m n { steps := steps }

/-- C10: a step whose action string is not one of the six known kinds does
not raise to the engine: `execute_step` returns a StepResult with
success=false whose error names the unknown action, and placing such a
step in a running workflow halts it with status `failed`, the failing
result being the last one appended. -/
theorem c10_unknown_action_fails_step (env : Env) (step : Step)
    (hnot : step.action ∉ [some "shell", some "http_request", some "log", some "delay",
                           some "wait_for_workflow", some "trigger_workflow"]) :
    execute_step env step =
      { name := step.name.getD "unnamed_step", action := step.action, success := false,
        output := .empty, error := "Unknown action: " ++ actionStr step.action } ∧
    (∀ (t : Nat) (rest : List Step) (e : Execution),
      (run_steps (engineDispatch env) t (step :: rest) e).status = "failed" ∧
      (run_steps (engineDispatch env) t (step :: rest) e).steps =
        e.steps ++ [execute_step env step]) := by
  have hstep : execute_step env step =
      { name := step.name.getD "unnamed_step", action := step.action, success := false,
        output := .empty, error := "Unknown action: " ++ actionStr step.action } := by
    simp only [List.mem_cons, not_or] at hnot
    obtain ⟨h1, h2, h3, h4, h5, h6, -⟩ := hnot
    unfold execute_step
    split
    · exact absurd (by assumption) h1
    · exact absurd (by assumption) h2
    · exact absurd (by assumption) h3
    · exact absurd (by assumption) h4
    · exact absurd (by assumption) h5
    · exact absurd (by assumption) h6
    · rfl
  refine ⟨hstep, ?_⟩
  intro t rest e
  rw [run_steps_fail_head (engineDispatch env) t step rest (execute_step env step) e rfl
      (by rw [hstep])]
  exact ⟨rfl, rfl⟩

/-- C10 witness: the theorem applied to the concrete step with action
`frobnicate` in a one-step workflow position. -/
theorem c10_unknown_action_witness :
    execute_step sampleEnvTimeout unknownStep =
      { name := unknownStep.name.getD "unnamed_step", action := unknownStep.action,
        success := false, output := .empty,
        error := "Unknown action: " ++ actionStr unknownStep.action } ∧
    ((run_steps (engineDispatch sampleEnvTimeout) 9 [unknownStep] (freshExecution "w" 9)).status = "failed" ∧
     (run_steps (engineDispatch sampleEnvTimeout) 9 [unknownStep] (freshExecution "w" 9)).steps =
       (freshExecution "w" 9).steps ++ [execute_step sampleEnvTimeout unknownStep]) :=
  ⟨(c10_unknown_action_fails_step sampleEnvTimeout unknownStep (by decide)).1,
   (c10_unknown_action_fails_step sampleEnvTimeout unknownStep (by decide)).2 9 [] (freshExecution "w" 9)⟩

end WorkflowEngine
